import Mathlib

/-!
Verification of the linguistic feature-extraction engine of the Attuned
repository (`scripts/validate_dreaddit.py`, classes `LinguisticFeatures`
and `LinguisticExtractor`).  The Python code is shallowly embedded:
strings become `List Char`, Python floats become `ℚ`, and the regular
expressions used by the extractor are embedded as explicit scanning
automata that reproduce Python `re` semantics (word boundaries,
non-overlapping `findall`/`str.count` matching) on ASCII text.
-/

namespace Attuned

/-- Python `str.strip()` whitespace (ASCII part): the characters stripped by
`strip` and used by `split()`. -/
def pyIsSpace (c : Char) : Bool :=
  c == ' ' || c == '\t' || c == '\n' || c == '\r' || c == '\x0b' || c == '\x0c'

/-- Python regex `\w` (ASCII part): letters, digits and underscore. -/
def isWordChar (c : Char) : Bool :=
  c.isAlpha || c.isDigit || c == '_'

/-- The vowels of `_syllables_in_word`: `"aeiouy"`. -/
def isVowelChar (c : Char) : Bool :=
  c == 'a' || c == 'e' || c == 'i' || c == 'o' || c == 'u' || c == 'y'

/-- Sentence-terminal punctuation, the class `[.!?]`. -/
def isTerminalChar (c : Char) : Bool :=
  c == '.' || c == '!' || c == '?'

/-- Python `str.isupper` for a string: at least one cased character and no
cased character in lowercase. -/
def isCasedChar (c : Char) : Bool := c.isUpper || c.isLower

/-- Python `str.isupper` on a list of characters. -/
def pyIsUpper (w : List Char) : Bool :=
  w.any isCasedChar && w.all (fun c => !isCasedChar c || c.isUpper)

/-!
## Word tokenizer

`_tokenize_words` is `re.findall(r"\b[a-zA-Z]+(?:'[a-zA-Z]+)?\b", text)`.
We embed it as a left-to-right scanning automaton.  The state records
whether the previous character was a word character (for `\b`), and the
partially matched token: an alphabetic run, an alphabetic run followed by
an apostrophe, or a run-apostrophe-run group.  Emission happens on the
character that closes a match, reproducing `findall`'s resume-after-match
and advance-on-failure behaviour (a failed trailing `\b`, e.g. before a
digit, drops the candidate token).
-/

inductive TokState where
  | scan (prevW : Bool)
  | inRun (acc : List Char)
  | afterApos (acc : List Char)
  | inGroup (acc1 acc2 : List Char)
  deriving DecidableEq, Repr

/-- One transition of the tokenizer automaton: consume `c`, return the new
state and the token emitted by this character, if any. -/
def tokStep : TokState → Char → TokState × Option (List Char)
  | .scan pw, c =>
      if c.isAlpha && !pw then (.inRun [c], none) else (.scan (isWordChar c), none)
  | .inRun acc, c =>
      if c.isAlpha then (.inRun (acc ++ [c]), none)
      else if c == '\'' then (.afterApos acc, none)
      else if isWordChar c then (.scan true, none)
      else (.scan false, some acc)
  | .afterApos acc, c =>
      if c.isAlpha then (.inGroup acc [c], none)
      else (.scan (isWordChar c), some acc)
  | .inGroup acc1 acc2, c =>
      if c.isAlpha then (.inGroup acc1 (acc2 ++ [c]), none)
      else if isWordChar c then (.scan true, some acc1)
      else (.scan false, some (acc1 ++ '\'' :: acc2))

/-- Tokens emitted at end of input from a final automaton state. -/
def tokFinish : TokState → List (List Char)
  | .scan _ => []
  | .inRun acc => [acc]
  | .afterApos acc => [acc]
  | .inGroup acc1 acc2 => [acc1 ++ '\'' :: acc2]

/-- Run the tokenizer automaton over the text. -/
def tokGo : TokState → List Char → List (List Char)
  | st, [] => tokFinish st
  | st, c :: cs =>
      match tokStep st c with
      | (st', some tok) => tok :: tokGo st' cs
      | (st', none) => tokGo st' cs

/-- `LinguisticExtractor._tokenize_words`. -/
def tokenizeWords (text : List Char) : List (List Char) :=
  tokGo (.scan false) text

/-!
## Sentence counting

`_count_sentences` is `len(re.findall(r'[.!?]+', text)) or 1`: the number
of maximal runs of terminal punctuation, with `or 1` giving `1` when there
are none.
-/

/-- Count maximal runs of characters satisfying `p`; the flag records
whether the previous character satisfied `p`. -/
def countRunsAux (p : Char → Bool) : Bool → List Char → ℕ
  | _, [] => 0
  | prev, c :: cs =>
      if p c then (if prev then 0 else 1) + countRunsAux p true cs
      else countRunsAux p false cs

/-- The number of maximal runs of `[.!?]` in the text. -/
def terminalRuns (text : List Char) : ℕ :=
  countRunsAux isTerminalChar false text

/-- `LinguisticExtractor._count_sentences`. -/
def countSentencesPy (text : List Char) : ℕ :=
  if terminalRuns text = 0 then 1 else terminalRuns text

-- sanity checks on the tokenizer and sentence counter
example : tokenizeWords "I'm fine".toList = ["I'm".toList, "fine".toList] := by decide
example : tokenizeWords "ab3cd".toList = [] := by decide
example : tokenizeWords "a 1'2 3'4".toList = ["a".toList] := by decide
example : tokenizeWords "don't5".toList = ["don".toList] := by decide
example : tokenizeWords "a'b'c".toList = ["a'b".toList, "c".toList] := by decide
example : countSentencesPy "hello".toList = 1 := by decide
example : countSentencesPy "a!? b. c".toList = 2 := by decide

/-!
## Syllable estimation

`_syllables_in_word`: lower-case the word, count entries into vowel
groups with a scanning flag, then apply the silent-`e` and `-le`
corrections and floor at 1.
-/

/-- The vowel-group loop of `_syllables_in_word`: `count` is incremented on
each vowel not preceded by a vowel; the flag is `prev_vowel`. -/
def vowelGroupCount : Bool → List Char → ℕ
  | _, [] => 0
  | prev, c :: cs =>
      (if isVowelChar c && !prev then 1 else 0) + vowelGroupCount (isVowelChar c) cs

/-- `word.endswith('e')`. -/
def endsWithE (w : List Char) : Bool :=
  match w.reverse with
  | 'e' :: _ => true
  | _ => false

/-- `word.endswith('le')`. -/
def endsWithLE (w : List Char) : Bool :=
  match w.reverse with
  | 'e' :: 'l' :: _ => true
  | _ => false

/-- `word[-3]`, when the word has at least three characters. -/
def thirdFromEnd (w : List Char) : Option Char :=
  w.reverse.get? 2

/-- `LinguisticExtractor._syllables_in_word`. -/
def syllablesInWord (w : List Char) : ℕ :=
  let word := w.map Char.toLower
  let count := vowelGroupCount false word
  let count :=
    if endsWithE word && decide (1 < count) then count - 1 else count
  let count :=
    if endsWithLE word && decide (2 < word.length) &&
        (match thirdFromEnd word with
         | some c => !isVowelChar c
         | none => false) then
      count + 1
    else count
  max 1 count

example : syllablesInWord "cat".toList = 1 := by decide
example : syllablesInWord "table".toList = 2 := by decide
example : syllablesInWord "happy".toList = 2 := by decide
example : syllablesInWord "home".toList = 1 := by decide
example : syllablesInWord "e".toList = 1 := by decide
example : syllablesInWord "le".toList = 1 := by decide
example : syllablesInWord "xyz".toList = 1 := by decide

/-!
## Contraction counting

`len(re.findall(r"\b\w+'\w+\b", text_lower))`, embedded as a scanning
automaton over word characters (`\w` = letters, digits, underscore).
-/

inductive ConState where
  | scan (prevW : Bool)
  | inW
  | afterA
  | inW2
  deriving DecidableEq, Repr

/-- One step of the contraction automaton: consume `c`, returning the new
state and whether a match was completed at this character. -/
def conStep : ConState → Char → ConState × Bool
  | .scan pw, c =>
      if isWordChar c && !pw then (.inW, false) else (.scan (isWordChar c), false)
  | .inW, c =>
      if isWordChar c then (.inW, false)
      else if c == '\'' then (.afterA, false)
      else (.scan (isWordChar c), false)
  | .afterA, c =>
      if isWordChar c then (.inW2, false)
      else (.scan (isWordChar c), false)
  | .inW2, c =>
      if isWordChar c then (.inW2, false)
      else (.scan (isWordChar c), true)

/-- Run the contraction automaton; a match still open at end of input also
counts (the trailing `\b` holds at end of string). -/
def conGo : ConState → List Char → ℕ
  | st, [] => if st = .inW2 then 1 else 0
  | st, c :: cs =>
      match conStep st c with
      | (st', true) => 1 + conGo st' cs
      | (st', false) => conGo st' cs

/-- The contraction count of `LinguisticExtractor.extract`. -/
def countContractions (text : List Char) : ℕ :=
  conGo (.scan false) text

example : countContractions "i'm fine, don't worry".toList = 2 := by decide
example : countContractions "a 1'2 3'4".toList = 2 := by decide
example : countContractions "a''b".toList = 0 := by decide
example : countContractions "a'b'c".toList = 1 := by decide
example : countContractions "rock'n".toList = 1 := by decide

/-!
## Lexical matching

`_count_matches`: phrases containing a space are counted with
`str.count` (leftmost non-overlapping substring occurrences); single-word
phrases with `len(re.findall(rf'\b{re.escape(phrase)}\b', text))`
(leftmost non-overlapping word-boundary occurrences).
-/

/-- Python `\b` between a character of wordness `lw` and the rest of the
text (virtual non-word character at end of string). -/
def boundaryAt (lw : Bool) (rest : List Char) : Bool :=
  match rest with
  | [] => lw
  | r :: _ => lw != isWordChar r

/-- Word-ness of the first character of a phrase (`false` for an empty
phrase, which does not occur in the lexicons). -/
def headWordness (p : List Char) : Bool :=
  match p with
  | [] => false
  | c :: _ => isWordChar c

/-- Word-ness of the last character of a phrase. -/
def lastWordness (p : List Char) : Bool :=
  match p.reverse with
  | [] => false
  | c :: _ => isWordChar c

/-- `str.count` scanning: when `skip` is positive the position lies inside a
counted occurrence and is passed over. -/
def strCountAux (needle : List Char) : ℕ → List Char → ℕ
  | _, [] => 0
  | skip + 1, _ :: cs => strCountAux needle skip cs
  | 0, c :: cs =>
      if needle.isPrefixOf (c :: cs) then
        1 + strCountAux needle (needle.length - 1) cs
      else strCountAux needle 0 cs

/-- Python `text.count(needle)` for a nonempty needle. -/
def strCount (needle text : List Char) : ℕ :=
  strCountAux needle 0 text

/-- `re.findall(rf'\b{phrase}\b', text)` scanning: `prevW` is the word-ness
of the previous character, `skip` passes over a counted occurrence. -/
def wordBoundaryCountAux (p : List Char) : ℕ → Bool → List Char → ℕ
  | _, _, [] => 0
  | skip + 1, _, c :: cs => wordBoundaryCountAux p skip (isWordChar c) cs
  | 0, prevW, c :: cs =>
      if (prevW != headWordness p) && p.isPrefixOf (c :: cs) &&
          boundaryAt (lastWordness p) ((c :: cs).drop p.length) then
        1 + wordBoundaryCountAux p (p.length - 1) (isWordChar c) cs
      else wordBoundaryCountAux p 0 (isWordChar c) cs

/-- The number of whole-word (`\b`-delimited) non-overlapping occurrences of
a phrase. -/
def wordBoundaryCount (p text : List Char) : ℕ :=
  wordBoundaryCountAux p 0 false text

/-- `LinguisticExtractor._count_matches`. -/
def countMatches (text : List Char) (word_list : List (List Char)) : ℕ :=
  (word_list.map (fun phrase =>
    if ' ' ∈ phrase then strCount phrase text
    else wordBoundaryCount phrase text)).sum

example : strCount "a a".toList "a a a".toList = 1 := by decide
example : wordBoundaryCount "um".toList "um'uh umbrella um".toList = 2 := by decide
example : wordBoundaryCount "always".toList "always, always".toList = 2 := by decide

/-!
## Lexicons (module-level constants of `validate_dreaddit.py`)
-/

def HEDGE_WORDS : List (List Char) :=
  ["maybe", "perhaps", "possibly", "probably", "might", "could",
   "sort of", "kind of", "i think", "i guess", "i suppose",
   "seems", "appears", "likely", "unlikely", "somewhat",
   "fairly", "rather", "quite", "a bit", "a little",
   "in my opinion", "i believe", "i feel", "not sure"].map String.toList

def CERTAINTY_MARKERS : List (List Char) :=
  ["definitely", "certainly", "absolutely", "clearly", "obviously",
   "undoubtedly", "surely", "of course", "without doubt",
   "no question", "for sure", "guaranteed", "always", "never",
   "must", "will", "know for a fact"].map String.toList

def URGENCY_WORDS : List (List Char) :=
  ["urgent", "asap", "immediately", "now", "hurry",
   "emergency", "critical", "deadline", "rush", "quick",
   "fast", "right away", "time-sensitive", "pressing"].map String.toList

def POLITENESS_MARKERS : List (List Char) :=
  ["please", "thank you", "thanks", "appreciate",
   "sorry", "excuse me", "pardon", "would you mind"].map String.toList

def FIRST_PERSON : List (List Char) :=
  ["i", "me", "my", "mine", "myself", "we", "us", "our", "ours"].map String.toList

def FILLER_WORDS : List (List Char) :=
  ["um", "uh", "like", "you know", "basically",
   "actually", "literally", "honestly", "well"].map String.toList

def NEGATIVE_EMOTION_WORDS : List (List Char) :=
  ["worried", "worry", "worries", "anxious", "anxiety", "nervous",
   "afraid", "fear", "scared", "panic", "stressed", "stress",
   "tense", "uneasy", "dread", "dreading",
   "upset", "frustrated", "annoyed", "angry", "mad",
   "sad", "depressed", "hopeless", "miserable",
   "terrible", "awful", "horrible", "worst",
   "struggling", "suffering", "overwhelmed", "exhausted",
   "desperate", "helpless", "stuck", "lost"].map String.toList

def ABSOLUTIST_WORDS : List (List Char) :=
  ["always", "never", "nothing", "everything", "completely",
   "totally", "absolutely", "entirely", "impossible", "definitely"].map String.toList

/-- The sentence-initial verbs/markers of `_count_imperatives`. -/
def IMPERATIVE_STARTERS : List (List Char) :=
  ["do", "don't", "please", "let", "make", "take", "give",
   "get", "go", "come", "tell", "help", "stop", "start",
   "try", "send", "call", "check", "look", "see", "read"].map String.toList

/-!
## Imperative heuristic

`_count_imperatives`: `re.split(r'[.!?]+', text)`, then for each piece,
`sent.strip().lower().split()`, counting pieces whose first word is an
imperative starter.
-/

/-- `re.split(r'[.!?]+', text)`: the pieces between maximal terminal runs,
including empty leading/trailing pieces.  `inRun` means the current piece
has already been flushed and a terminal run is being consumed. -/
def splitTermAux : Bool → List Char → List Char → List (List Char)
  | _, acc, [] => [acc.reverse]
  | inRun, acc, c :: cs =>
      if isTerminalChar c then
        if inRun then splitTermAux true acc cs
        else acc.reverse :: splitTermAux true [] cs
      else splitTermAux false (c :: acc) cs

def splitTerm (text : List Char) : List (List Char) :=
  splitTermAux false [] text

/-- The first whitespace-separated word of `sent.strip().lower().split()`. -/
def firstWordLower (sent : List Char) : List Char :=
  ((sent.map Char.toLower).dropWhile pyIsSpace).takeWhile (fun c => !pyIsSpace c)

/-- `LinguisticExtractor._count_imperatives`. -/
def countImperatives (text : List Char) : ℕ :=
  (splitTerm text).countP (fun sent =>
    let w := firstWordLower sent
    !w.isEmpty && decide (w ∈ IMPERATIVE_STARTERS))

example : splitTerm "a.b".toList = ["a".toList, "b".toList] := by decide
example : splitTerm ".".toList = ["".toList, "".toList] := by decide
example : countImperatives "Please send the report immediately, thank you.".toList = 1 := by
  decide
example : countImperatives "Stop. do it! now".toList = 2 := by decide

/-!
## The feature record and composite scores
-/

/-- The `LinguisticFeatures` dataclass; every field defaults to zero. -/
structure LinguisticFeatures where
  char_count : ℕ := 0
  word_count : ℕ := 0
  sentence_count : ℕ := 0
  avg_word_length : ℚ := 0
  avg_sentence_length : ℚ := 0
  long_word_ratio : ℚ := 0
  reading_grade_level : ℚ := 0
  exclamation_ratio : ℚ := 0
  question_ratio : ℚ := 0
  caps_word_count : ℕ := 0
  caps_ratio : ℚ := 0
  hedge_count : ℕ := 0
  hedge_density : ℚ := 0
  certainty_count : ℕ := 0
  contraction_ratio : ℚ := 0
  politeness_count : ℕ := 0
  first_person_ratio : ℚ := 0
  urgency_word_count : ℕ := 0
  imperative_count : ℕ := 0
  filler_ratio : ℚ := 0
  negative_emotion_count : ℕ := 0
  negative_emotion_density : ℚ := 0
  absolutist_count : ℕ := 0
  absolutist_density : ℚ := 0
  deriving DecidableEq, Repr

/-- The all-zero default record `LinguisticFeatures()`. -/
def defaultFeatures : LinguisticFeatures := {}

/-- `LinguisticFeatures.uncertainty_score`. -/
def LinguisticFeatures.uncertainty_score (f : LinguisticFeatures) : ℚ :=
  let hedge_component := min (f.hedge_density * 2) 1 * 0.6
  let question_component := min (f.question_ratio * 3) 1 * 0.4
  hedge_component + question_component

/-- `LinguisticFeatures.uncertainty_score_v2`. -/
def LinguisticFeatures.uncertainty_score_v2 (f : LinguisticFeatures) : ℚ :=
  let base := f.uncertainty_score
  let neg_emotion := min (f.negative_emotion_density * 2) 1
  let first_person := min (f.first_person_ratio * 2) 1
  base * 0.4 + neg_emotion * 0.4 + first_person * 0.2

/-- `LinguisticFeatures.emotional_intensity`. -/
def LinguisticFeatures.emotional_intensity (f : LinguisticFeatures) : ℚ :=
  let exclaim := min (f.exclamation_ratio * 5) 1 * 0.5
  let caps := min (f.caps_ratio * 3) 1 * 0.5
  exclaim + caps

/-- `LinguisticFeatures.formality_score`. -/
def LinguisticFeatures.formality_score (f : LinguisticFeatures) : ℚ :=
  let contraction_penalty := f.contraction_ratio * 0.4
  let complexity_bonus := min (f.reading_grade_level / 12) 1 * 0.4
  let filler_penalty := f.filler_ratio * 0.2
  max 0 (min 1 (0.5 + complexity_bonus - contraction_penalty - filler_penalty))

/-- `LinguisticFeatures.complexity_score`. -/
def LinguisticFeatures.complexity_score (f : LinguisticFeatures) : ℚ :=
  let grade := min (f.reading_grade_level / 12) 1 * 0.4
  let sentence_len := min (f.avg_sentence_length / 25) 1 * 0.3
  let long_words := f.long_word_ratio * 0.3
  grade + sentence_len + long_words

/-!
## The extractor

`LinguisticExtractor` with its default configuration
(`long_word_threshold = 6`, `min_caps_word_length = 2`).
-/

def long_word_threshold : ℕ := 6

def min_caps_word_length : ℕ := 2

/-- `LinguisticExtractor.extract`. -/
def extract (text : List Char) : LinguisticFeatures :=
  if text.isEmpty || text.all pyIsSpace then defaultFeatures
  else
    let words := tokenizeWords text
    let wc := words.length
    let sc := max (countSentencesPy text) 1
    if wc = 0 then
      { char_count := text.length, word_count := wc, sentence_count := sc }
    else
      let word_lengths := words.map List.length
      let text_lower := text.map Char.toLower
      let words_lower := words.map (List.map Char.toLower)
      let syllables := (words.map syllablesInWord).sum
      let exclamations := text.countP (· == '!')
      let questions := text.countP (· == '?')
      let caps_words := words.filter
        (fun w => pyIsUpper w && decide (min_caps_word_length ≤ w.length))
      let hedges := countMatches text_lower HEDGE_WORDS
      let contractions := countContractions text_lower
      let first_person := words_lower.countP (fun w => decide (w ∈ FIRST_PERSON))
      let fillers := countMatches text_lower FILLER_WORDS
      let neg_emotions := countMatches text_lower NEGATIVE_EMOTION_WORDS
      let absolutists := countMatches text_lower ABSOLUTIST_WORDS
      { char_count := text.length
        word_count := wc
        sentence_count := sc
        avg_word_length :=
          if word_lengths.isEmpty then 0 else (word_lengths.sum : ℚ) / wc
        avg_sentence_length := (wc : ℚ) / sc
        long_word_ratio :=
          ((word_lengths.countP (fun l => decide (long_word_threshold < l)) : ℚ)) / wc
        reading_grade_level :=
          if 0 < wc ∧ 0 < sc then
            max 0 (0.39 * ((wc : ℚ) / sc) + 11.8 * ((syllables : ℚ) / wc) - 15.59)
          else 0
        exclamation_ratio := (exclamations : ℚ) / sc
        question_ratio := (questions : ℚ) / sc
        caps_word_count := caps_words.length
        caps_ratio := (caps_words.length : ℚ) / wc
        hedge_count := hedges
        hedge_density := (hedges : ℚ) / sc
        certainty_count := countMatches text_lower CERTAINTY_MARKERS
        contraction_ratio := (contractions : ℚ) / wc
        politeness_count := countMatches text_lower POLITENESS_MARKERS
        first_person_ratio := (first_person : ℚ) / wc
        urgency_word_count := countMatches text_lower URGENCY_WORDS
        imperative_count := countImperatives text
        filler_ratio := (fillers : ℚ) / wc
        negative_emotion_count := neg_emotions
        negative_emotion_density := (neg_emotions : ℚ) / sc
        absolutist_count := absolutists
        absolutist_density := (absolutists : ℚ) / sc }

-- sanity: the empty-input branch and the word_count-0 early return
example : extract "".toList = defaultFeatures := by decide
example : extract "   ".toList = defaultFeatures := by decide
example : (extract "123.".toList).char_count = 4 := by decide
example : (extract "123.".toList).sentence_count = 1 := by decide
example : (extract "a 1'2 3'4".toList).contraction_ratio = 2 := by
  with_unfolding_all decide
example : (extract "um'uh".toList).filler_ratio = 2 := by with_unfolding_all decide
example : (extract "!!! a".toList).exclamation_ratio = 3 := by with_unfolding_all decide
example : (extract "!!! a!".toList).exclamation_ratio = 2 := by with_unfolding_all decide
example : (extract "cat dog sat.".toList).reading_grade_level = 0 := by
  with_unfolding_all decide
example : (extract "I'm fine".toList).first_person_ratio = 0 := by
  with_unfolding_all decide

/-!
## Division-guard checking

`extractChecked` recomputes `extract` with every division routed through
`safeDiv`, which fails on a zero denominator instead of producing a
value.  `extractChecked t = some (extract t)` certifies that every
division performed by the extractor has a nonzero denominator, i.e. that
the `word_count == 0` early return and the flooring of `sentence_count`
guard all divisions.  The composite scores' only divisions are by the
constants 12 and 25, checked the same way.
-/

/-- Division that fails on a zero denominator. -/
def safeDiv (a b : ℚ) : Option ℚ :=
  if b = 0 then none else some (a / b)

/-- `extract` with all divisions checked. -/
def extractChecked (text : List Char) : Option LinguisticFeatures :=
  if text.isEmpty || text.all pyIsSpace then some defaultFeatures
  else
    let words := tokenizeWords text
    let wc := words.length
    let sc := max (countSentencesPy text) 1
    if wc = 0 then
      some { char_count := text.length, word_count := wc, sentence_count := sc }
    else
      let word_lengths := words.map List.length
      let text_lower := text.map Char.toLower
      let words_lower := words.map (List.map Char.toLower)
      let syllables := (words.map syllablesInWord).sum
      let exclamations := text.countP (· == '!')
      let questions := text.countP (· == '?')
      let caps_words := words.filter
        (fun w => pyIsUpper w && decide (min_caps_word_length ≤ w.length))
      let hedges := countMatches text_lower HEDGE_WORDS
      let contractions := countContractions text_lower
      let first_person := words_lower.countP (fun w => decide (w ∈ FIRST_PERSON))
      let fillers := countMatches text_lower FILLER_WORDS
      let neg_emotions := countMatches text_lower NEGATIVE_EMOTION_WORDS
      let absolutists := countMatches text_lower ABSOLUTIST_WORDS
      do
      let awl ←
        if word_lengths.isEmpty then some 0 else safeDiv (word_lengths.sum : ℚ) wc
      let asl ← safeDiv (wc : ℚ) sc
      let lwr ← safeDiv (word_lengths.countP (fun l => decide (long_word_threshold < l)) : ℚ) wc
      let grade ←
        if 0 < wc ∧ 0 < sc then do
          let a ← safeDiv (wc : ℚ) sc
          let b ← safeDiv (syllables : ℚ) wc
          some (max 0 (0.39 * a + 11.8 * b - 15.59))
        else some 0
      let er ← safeDiv (exclamations : ℚ) sc
      let qr ← safeDiv (questions : ℚ) sc
      let cr ← safeDiv (caps_words.length : ℚ) wc
      let hd ← safeDiv (hedges : ℚ) sc
      let conr ← safeDiv (contractions : ℚ) wc
      let fpr ← safeDiv (first_person : ℚ) wc
      let fr ← safeDiv (fillers : ℚ) wc
      let ned ← safeDiv (neg_emotions : ℚ) sc
      let ad ← safeDiv (absolutists : ℚ) sc
      some
        { char_count := text.length
          word_count := wc
          sentence_count := sc
          avg_word_length := awl
          avg_sentence_length := asl
          long_word_ratio := lwr
          reading_grade_level := grade
          exclamation_ratio := er
          question_ratio := qr
          caps_word_count := caps_words.length
          caps_ratio := cr
          hedge_count := hedges
          hedge_density := hd
          certainty_count := countMatches text_lower CERTAINTY_MARKERS
          contraction_ratio := conr
          politeness_count := countMatches text_lower POLITENESS_MARKERS
          first_person_ratio := fpr
          urgency_word_count := countMatches text_lower URGENCY_WORDS
          imperative_count := countImperatives text
          filler_ratio := fr
          negative_emotion_count := neg_emotions
          negative_emotion_density := ned
          absolutist_count := absolutists
          absolutist_density := ad }

/-- `uncertainty_score` with checked division (it has none). -/
def uncertaintyScoreChecked (f : LinguisticFeatures) : Option ℚ :=
  some (min (f.hedge_density * 2) 1 * 0.6 + min (f.question_ratio * 3) 1 * 0.4)

/-- `uncertainty_score_v2` with checked division (it has none). -/
def uncertaintyScoreV2Checked (f : LinguisticFeatures) : Option ℚ := do
  let base ← uncertaintyScoreChecked f
  some (base * 0.4 + min (f.negative_emotion_density * 2) 1 * 0.4 +
    min (f.first_person_ratio * 2) 1 * 0.2)

/-- `emotional_intensity` with checked division (it has none). -/
def emotionalIntensityChecked (f : LinguisticFeatures) : Option ℚ :=
  some (min (f.exclamation_ratio * 5) 1 * 0.5 + min (f.caps_ratio * 3) 1 * 0.5)

/-- `formality_score` with its division by 12 checked. -/
def formalityScoreChecked (f : LinguisticFeatures) : Option ℚ := do
  let g ← safeDiv f.reading_grade_level 12
  some (max 0 (min 1 (0.5 + min g 1 * 0.4 - f.contraction_ratio * 0.4 -
    f.filler_ratio * 0.2)))

/-- `complexity_score` with its divisions by 12 and 25 checked. -/
def complexityScoreChecked (f : LinguisticFeatures) : Option ℚ := do
  let g ← safeDiv f.reading_grade_level 12
  let s ← safeDiv f.avg_sentence_length 25
  some (min g 1 * 0.4 + min s 1 * 0.3 + f.long_word_ratio * 0.3)

/-!
## Branch characterizations of `extract`
-/

theorem extract_of_space {t : List Char} (h : (t.isEmpty || t.all pyIsSpace) = true) :
    extract t = defaultFeatures := by
  unfold extract
  rw [if_pos h]

theorem extract_of_wc0 {t : List Char} (h : ¬(t.isEmpty || t.all pyIsSpace) = true)
    (h0 : (tokenizeWords t).length = 0) :
    extract t = { char_count := t.length, word_count := 0,
                  sentence_count := max (countSentencesPy t) 1 } := by
  unfold extract
  rw [if_neg h]
  simp only [h0, if_pos rfl]
  rw [if_pos trivial]

theorem extract_of_wcpos {t : List Char} (h : ¬(t.isEmpty || t.all pyIsSpace) = true)
    (h0 : (tokenizeWords t).length ≠ 0) :
    extract t =
      { char_count := t.length
        word_count := (tokenizeWords t).length
        sentence_count := max (countSentencesPy t) 1
        avg_word_length :=
          if ((tokenizeWords t).map List.length).isEmpty then 0
          else (((tokenizeWords t).map List.length).sum : ℚ) / (tokenizeWords t).length
        avg_sentence_length :=
          ((tokenizeWords t).length : ℚ) / (max (countSentencesPy t) 1 : ℕ)
        long_word_ratio :=
          ((((tokenizeWords t).map List.length).countP
              (fun l => decide (long_word_threshold < l)) : ℚ)) / (tokenizeWords t).length
        reading_grade_level :=
          if 0 < (tokenizeWords t).length ∧ 0 < max (countSentencesPy t) 1 then
            max 0 (0.39 * (((tokenizeWords t).length : ℚ) / (max (countSentencesPy t) 1 : ℕ)) +
              11.8 * ((((tokenizeWords t).map syllablesInWord).sum : ℚ) /
                (tokenizeWords t).length) - 15.59)
          else 0
        exclamation_ratio :=
          ((t.countP (· == '!') : ℚ)) / (max (countSentencesPy t) 1 : ℕ)
        question_ratio :=
          ((t.countP (· == '?') : ℚ)) / (max (countSentencesPy t) 1 : ℕ)
        caps_word_count :=
          ((tokenizeWords t).filter
            (fun w => pyIsUpper w && decide (min_caps_word_length ≤ w.length))).length
        caps_ratio :=
          (((tokenizeWords t).filter
              (fun w => pyIsUpper w && decide (min_caps_word_length ≤ w.length))).length : ℚ) /
            (tokenizeWords t).length
        hedge_count := countMatches (t.map Char.toLower) HEDGE_WORDS
        hedge_density :=
          ((countMatches (t.map Char.toLower) HEDGE_WORDS : ℚ)) / (max (countSentencesPy t) 1 : ℕ)
        certainty_count := countMatches (t.map Char.toLower) CERTAINTY_MARKERS
        contraction_ratio :=
          ((countContractions (t.map Char.toLower) : ℚ)) / (tokenizeWords t).length
        politeness_count := countMatches (t.map Char.toLower) POLITENESS_MARKERS
        first_person_ratio :=
          (((tokenizeWords t).map (List.map Char.toLower)).countP
              (fun w => decide (w ∈ FIRST_PERSON)) : ℚ) / (tokenizeWords t).length
        urgency_word_count := countMatches (t.map Char.toLower) URGENCY_WORDS
        imperative_count := countImperatives t
        filler_ratio :=
          ((countMatches (t.map Char.toLower) FILLER_WORDS : ℚ)) / (tokenizeWords t).length
        negative_emotion_count := countMatches (t.map Char.toLower) NEGATIVE_EMOTION_WORDS
        negative_emotion_density :=
          ((countMatches (t.map Char.toLower) NEGATIVE_EMOTION_WORDS : ℚ)) /
            (max (countSentencesPy t) 1 : ℕ)
        absolutist_count := countMatches (t.map Char.toLower) ABSOLUTIST_WORDS
        absolutist_density :=
          ((countMatches (t.map Char.toLower) ABSOLUTIST_WORDS : ℚ)) /
            (max (countSentencesPy t) 1 : ℕ) } := by
  unfold extract
  rw [if_neg h]
  simp only [if_neg h0]

/-!
## Claim C1 (empty / whitespace-only input)

The code's early return produces `LinguisticFeatures()`, whose
`sentence_count` default is 0, not 1 as the claim states.
-/

/-- C1, counterexample: extracting `""` or `"   "` yields
`sentence_count = 0`, not `1` as claimed. -/
theorem claim_C1_counterexample :
    (extract "".toList).sentence_count = 0 ∧
      (extract "   ".toList).sentence_count = 0 ∧
      (extract "".toList).sentence_count ≠ 1 := by
  refine ⟨by decide, by decide, by decide⟩

/-- C1 (amended): for the empty string and every whitespace-only string,
`extract` returns the all-zero default record: `word_count = 0`,
`sentence_count = 0`, and every ratio/density field 0. -/
theorem claim_C1_amended {t : List Char} (h : t.all pyIsSpace = true) :
    extract t = defaultFeatures := by
  exact extract_of_space (by simp [h])

/-- Witness for C1 at the whitespace-only input `"   "`. -/
theorem claim_C1_witness :
    "   ".toList.all pyIsSpace = true ∧ extract "   ".toList = defaultFeatures :=
  ⟨by decide, claim_C1_amended (by decide)⟩

/-!
## Claim C4 (non-empty input with `word_count = 0`)

The early return at `word_count == 0` has already set `char_count` and
`sentence_count`, so the record is not the all-zero default when the text
is not whitespace-only.
-/

/-- C4, counterexample: `"123."` is non-empty with `word_count = 0`, but its
record is not the all-zero default — `char_count = 4` and
`sentence_count = 1`. -/
theorem claim_C4_counterexample :
    (extract "123.".toList).word_count = 0 ∧
      (extract "123.".toList).char_count = 4 ∧
      (extract "123.".toList).sentence_count = 1 ∧
      extract "123.".toList ≠ defaultFeatures := by
  refine ⟨by decide, by decide, by decide, by decide⟩

/-- C4 (amended): for every non-empty input on which extraction yields
`word_count = 0`, every field of the returned record other than
`char_count` and `sentence_count` is zero (in particular every
word-count-denominator ratio is 0); the record is the all-zero default
exactly when the text is whitespace-only, and otherwise
`char_count = len(text)` and `sentence_count ≥ 1`. -/
theorem claim_C4_amended {t : List Char} (hne : t ≠ [])
    (h0 : (extract t).word_count = 0) :
    extract t = { defaultFeatures with
                  char_count := (extract t).char_count
                  sentence_count := (extract t).sentence_count } ∧
      (t.all pyIsSpace = true → extract t = defaultFeatures) ∧
      (t.all pyIsSpace = false →
        (extract t).char_count = t.length ∧ 1 ≤ (extract t).sentence_count) := by
  by_cases hsp : (t.isEmpty || t.all pyIsSpace) = true
  · have he := extract_of_space hsp
    refine ⟨by rw [he], fun _ => he, fun hf => ?_⟩
    have : t.isEmpty = true := by
      rcases Bool.or_eq_true_iff.mp hsp with h | h
      · exact h
      · exact absurd h (by simp [hf])
    exact absurd (List.isEmpty_iff.mp this) hne
  · by_cases hw : (tokenizeWords t).length = 0
    · have he := extract_of_wc0 hsp hw
      have hsp' : t.all pyIsSpace = false := by
        cases hAll : t.all pyIsSpace with
        | false => rfl
        | true => exact absurd (by simp [hAll]) hsp
      refine ⟨by rw [he]; rfl, fun hc => absurd hc (by simp [hsp']), fun _ => ?_⟩
      rw [he]
      exact ⟨rfl, le_max_right _ _⟩
    · have he := extract_of_wcpos hsp hw
      rw [he] at h0
      exact absurd h0 hw

/-- Witness for C4 at the input `"123."`. -/
theorem claim_C4_witness :
    "123.".toList ≠ [] ∧ (extract "123.".toList).word_count = 0 ∧
      ("123.".toList.all pyIsSpace = false →
        (extract "123.".toList).char_count = "123.".toList.length ∧
          1 ≤ (extract "123.".toList).sentence_count) := by
  refine ⟨by decide, by decide, ?_⟩
  exact (claim_C4_amended (t := "123.".toList) (by decide) (by decide)).2.2

/-!
## Claim C3 (composite score bounds)

Four of the five scores are bounded in [0,1] on records with non-negative
fields, but `complexity_score`'s long-word term `long_word_ratio * 0.3` is
not capped before summation, so non-negativity alone does not bound it:
`long_word_ratio = 4` gives `complexity_score = 1.2`.
-/

/-- A capped term `min a 1` lies in `[0,1]` when `a ≥ 0`. -/
theorem min_one_bounds {a : ℚ} (ha : 0 ≤ a) : 0 ≤ min a 1 ∧ min a 1 ≤ 1 :=
  ⟨le_min ha zero_le_one, min_le_right a 1⟩

/-- C3, counterexample: a record whose only nonzero (and non-negative) field
is `long_word_ratio = 4` has `complexity_score = 6/5 > 1`. -/
theorem claim_C3_counterexample :
    ({ long_word_ratio := 4 } : LinguisticFeatures).complexity_score = 6 / 5 ∧
      1 < ({ long_word_ratio := 4 } : LinguisticFeatures).complexity_score := by
  constructor
  · with_unfolding_all decide
  · with_unfolding_all decide

/-- C3 (amended): on every record with non-negative fields,
`uncertainty_score`, `uncertainty_score_v2`, `emotional_intensity` and
`formality_score` return values in `[0,1]` (formality is explicitly
clamped, the others have each weighted term individually capped);
`complexity_score` is in `[0,1]` only under the additional premise
`long_word_ratio ≤ 1`, since its long-word term is not capped before
summation. -/
theorem claim_C3_amended (f : LinguisticFeatures)
    (h1 : 0 ≤ f.hedge_density) (h2 : 0 ≤ f.question_ratio)
    (h3 : 0 ≤ f.negative_emotion_density) (h4 : 0 ≤ f.first_person_ratio)
    (h5 : 0 ≤ f.exclamation_ratio) (h6 : 0 ≤ f.caps_ratio)
    (h7 : 0 ≤ f.reading_grade_level) (h8 : 0 ≤ f.avg_sentence_length)
    (h9 : 0 ≤ f.long_word_ratio) :
    (0 ≤ f.uncertainty_score ∧ f.uncertainty_score ≤ 1) ∧
      (0 ≤ f.uncertainty_score_v2 ∧ f.uncertainty_score_v2 ≤ 1) ∧
      (0 ≤ f.emotional_intensity ∧ f.emotional_intensity ≤ 1) ∧
      (0 ≤ f.formality_score ∧ f.formality_score ≤ 1) ∧
      (f.long_word_ratio ≤ 1 →
        0 ≤ f.complexity_score ∧ f.complexity_score ≤ 1) := by
  obtain ⟨a1, a2⟩ := min_one_bounds (mul_nonneg h1 (by norm_num : (0:ℚ) ≤ 2))
  obtain ⟨b1, b2⟩ := min_one_bounds (mul_nonneg h2 (by norm_num : (0:ℚ) ≤ 3))
  obtain ⟨c1, c2⟩ := min_one_bounds (mul_nonneg h3 (by norm_num : (0:ℚ) ≤ 2))
  obtain ⟨d1, d2⟩ := min_one_bounds (mul_nonneg h4 (by norm_num : (0:ℚ) ≤ 2))
  obtain ⟨e1, e2⟩ := min_one_bounds (mul_nonneg h5 (by norm_num : (0:ℚ) ≤ 5))
  obtain ⟨g1, g2⟩ := min_one_bounds (mul_nonneg h6 (by norm_num : (0:ℚ) ≤ 3))
  obtain ⟨i1, i2⟩ := min_one_bounds (div_nonneg h7 (by norm_num : (0:ℚ) ≤ 12))
  obtain ⟨j1, j2⟩ := min_one_bounds (div_nonneg h8 (by norm_num : (0:ℚ) ≤ 25))
  have hu : 0 ≤ f.uncertainty_score ∧ f.uncertainty_score ≤ 1 := by
    unfold LinguisticFeatures.uncertainty_score
    constructor <;> linarith
  refine ⟨hu, ?_, ?_, ?_, ?_⟩
  · unfold LinguisticFeatures.uncertainty_score_v2
    obtain ⟨hu1, hu2⟩ := hu
    constructor <;> linarith
  · unfold LinguisticFeatures.emotional_intensity
    constructor <;> linarith
  · unfold LinguisticFeatures.formality_score
    constructor
    · exact le_max_left 0 _
    · exact max_le (by norm_num) (min_le_left 1 _)
  · intro hlw
    unfold LinguisticFeatures.complexity_score
    constructor <;> linarith

/-- Witness for C3 at the all-zero default record (all hypotheses hold and
the `long_word_ratio ≤ 1` premise of the complexity part holds). -/
theorem claim_C3_witness :
    (0 ≤ defaultFeatures.uncertainty_score ∧ defaultFeatures.uncertainty_score ≤ 1) ∧
      (0 ≤ defaultFeatures.complexity_score ∧ defaultFeatures.complexity_score ≤ 1) := by
  have h := claim_C3_amended defaultFeatures (by norm_num [defaultFeatures])
    (by norm_num [defaultFeatures]) (by norm_num [defaultFeatures])
    (by norm_num [defaultFeatures]) (by norm_num [defaultFeatures])
    (by norm_num [defaultFeatures]) (by norm_num [defaultFeatures])
    (by norm_num [defaultFeatures]) (by norm_num [defaultFeatures])
  exact ⟨h.1, h.2.2.2.2 (by norm_num [defaultFeatures])⟩

/-!
## Claim C9 (all divisions guarded, no NaN/∞)
-/

theorem extractChecked_eq (t : List Char) : extractChecked t = some (extract t) := by
  by_cases hsp : (t.isEmpty || t.all pyIsSpace) = true
  · rw [extract_of_space hsp]
    unfold extractChecked
    rw [if_pos hsp]
  · by_cases h0 : (tokenizeWords t).length = 0
    · rw [extract_of_wc0 hsp h0]
      unfold extractChecked
      rw [if_neg hsp]
      simp only [h0, if_pos rfl]
      rw [if_pos trivial]
    · rw [extract_of_wcpos hsp h0]
      unfold extractChecked
      rw [if_neg hsp]
      simp only [if_neg h0]
      have hwcQ : ((tokenizeWords t).length : ℚ) ≠ 0 := Nat.cast_ne_zero.mpr h0
      have hscN : 0 < max (countSentencesPy t) 1 :=
        lt_of_lt_of_le one_pos (le_max_right _ _)
      have hscQ : ((max (countSentencesPy t) 1 : ℕ) : ℚ) ≠ 0 :=
        Nat.cast_ne_zero.mpr (Nat.pos_iff_ne_zero.mp hscN)
      have hemp : ((tokenizeWords t).map List.length).isEmpty = false := by
        rw [List.isEmpty_eq_false_iff_exists_mem]
        rcases List.exists_mem_of_length_pos (Nat.pos_of_ne_zero h0) with ⟨w, hw⟩
        exact ⟨w.length, List.mem_map_of_mem List.length hw⟩
      have hcond : 0 < (tokenizeWords t).length ∧ 0 < max (countSentencesPy t) 1 :=
        ⟨Nat.pos_of_ne_zero h0, hscN⟩
      simp only [safeDiv, hemp, Bool.false_eq_true, if_false, if_neg hwcQ, if_neg hscQ,
        if_pos hcond, Option.bind_eq_bind, Option.some_bind]

/-- C9: extraction and the five composite-score functions are total and
produce finite rationals: `extractChecked` (resp. the checked score
functions), in which every division fails unless its denominator is
nonzero, always succeed and agree with `extract` (resp. the scores) —
i.e. the `word_count == 0` early return and the `sentence_count` floor
guard every division. -/
theorem claim_C9 (t : List Char) (f : LinguisticFeatures) :
    extractChecked t = some (extract t) ∧
      uncertaintyScoreChecked f = some f.uncertainty_score ∧
      uncertaintyScoreV2Checked f = some f.uncertainty_score_v2 ∧
      emotionalIntensityChecked f = some f.emotional_intensity ∧
      formalityScoreChecked f = some f.formality_score ∧
      complexityScoreChecked f = some f.complexity_score := by
  refine ⟨extractChecked_eq t, rfl, rfl, rfl, ?_, ?_⟩
  · unfold formalityScoreChecked safeDiv
    rw [if_neg (by norm_num : (12 : ℚ) ≠ 0)]
    rfl
  · unfold complexityScoreChecked safeDiv
    rw [if_neg (by norm_num : (12 : ℚ) ≠ 0), if_neg (by norm_num : (25 : ℚ) ≠ 0)]
    rfl

/-!
## Claim C2 (word-count-denominator ratio bounds)

`long_word_ratio`, `caps_ratio` and `first_person_ratio` are genuine
fractions of the token count, but `contraction_ratio` counts
`\b\w+'\w+\b` matches (`\w` includes digits and underscores, which the
`[a-zA-Z]`-only tokenizer does not produce) and `filler_ratio` counts
lexicon matches (several of which can occur inside a single token such as
`um'uh`), so both can exceed `word_count` and hence 1.
-/

/-- C2, counterexample: `"a 1'2 3'4"` has one word token but two
contraction matches, so `contraction_ratio = 2 > 1`; `"um'uh"` is a single
token containing the two filler matches `um` and `uh`, so
`filler_ratio = 2 > 1`. -/
theorem claim_C2_counterexample :
    (extract "a 1'2 3'4".toList).contraction_ratio = 2 ∧
      1 < (extract "a 1'2 3'4".toList).contraction_ratio ∧
      (extract "um'uh".toList).filler_ratio = 2 ∧
      1 < (extract "um'uh".toList).filler_ratio := by
  refine ⟨?_, ?_, ?_, ?_⟩ <;> with_unfolding_all decide

/-- C2 (amended): for every input, `long_word_ratio`, `caps_ratio` and
`first_person_ratio` lie in `[0,1]`; `contraction_ratio` and
`filler_ratio` are non-negative but may exceed 1; and all five are 0
whenever `word_count = 0`. -/
theorem claim_C2_amended (t : List Char) :
    (0 ≤ (extract t).long_word_ratio ∧ (extract t).long_word_ratio ≤ 1) ∧
      (0 ≤ (extract t).caps_ratio ∧ (extract t).caps_ratio ≤ 1) ∧
      (0 ≤ (extract t).first_person_ratio ∧ (extract t).first_person_ratio ≤ 1) ∧
      0 ≤ (extract t).contraction_ratio ∧
      0 ≤ (extract t).filler_ratio ∧
      ((extract t).word_count = 0 →
        (extract t).long_word_ratio = 0 ∧ (extract t).caps_ratio = 0 ∧
          (extract t).contraction_ratio = 0 ∧ (extract t).first_person_ratio = 0 ∧
          (extract t).filler_ratio = 0) := by
  by_cases hsp : (t.isEmpty || t.all pyIsSpace) = true
  · rw [extract_of_space hsp]
    refine ⟨⟨le_rfl, ?_⟩, ⟨le_rfl, ?_⟩, ⟨le_rfl, ?_⟩, le_rfl, le_rfl,
      fun _ => ⟨rfl, rfl, rfl, rfl, rfl⟩⟩ <;> norm_num [defaultFeatures]
  · by_cases h0 : (tokenizeWords t).length = 0
    · rw [extract_of_wc0 hsp h0]
      refine ⟨⟨le_rfl, ?_⟩, ⟨le_rfl, ?_⟩, ⟨le_rfl, ?_⟩, le_rfl, le_rfl,
        fun _ => ⟨rfl, rfl, rfl, rfl, rfl⟩⟩ <;> norm_num
    · rw [extract_of_wcpos hsp h0]
      dsimp only
      have hwcQ : (0 : ℚ) < ((tokenizeWords t).length : ℚ) := by
        exact_mod_cast Nat.pos_of_ne_zero h0
      refine ⟨⟨by positivity, ?_⟩, ⟨by positivity, ?_⟩, ⟨by positivity, ?_⟩,
        by positivity, by positivity, fun hc => absurd hc h0⟩
      · rw [div_le_one hwcQ]
        have := List.countP_le_length (l := (tokenizeWords t).map List.length)
          (p := fun l => decide (long_word_threshold < l))
        rw [List.length_map] at this
        exact_mod_cast this
      · rw [div_le_one hwcQ]
        exact_mod_cast List.length_filter_le _ _
      · rw [div_le_one hwcQ]
        have := List.countP_le_length
          (l := (tokenizeWords t).map (List.map Char.toLower))
          (p := fun w => decide (w ∈ FIRST_PERSON))
        rw [List.length_map] at this
        exact_mod_cast this

/-- Witness for C2 at the input `"? !"` (its `word_count` is 0, so the
zero-ratio implication of the theorem applies non-vacuously). -/
theorem claim_C2_witness :
    (extract "? !".toList).word_count = 0 ∧
      (extract "? !".toList).contraction_ratio = 0 ∧
      (extract "? !".toList).filler_ratio = 0 := by
  have h := (claim_C2_amended "? !".toList).2.2.2.2.2 (by decide)
  exact ⟨by decide, h.2.2.1, h.2.2.2.2⟩

/-!
## Claim C7 (Flesch-Kincaid grade level)
-/

/-- C7: whenever `word_count > 0` and `sentence_count > 0`, the extracted
`reading_grade_level` equals
`max 0 (0.39*(words/sentences) + 11.8*(syllables/words) - 15.59)`, with
the total syllable count the sum of the per-word estimates. -/
theorem claim_C7 (t : List Char) (hw : 0 < (extract t).word_count)
    (hs : 0 < (extract t).sentence_count) :
    (extract t).reading_grade_level =
      max 0 (0.39 * (((extract t).word_count : ℚ) / ((extract t).sentence_count : ℚ)) +
        11.8 * ((((tokenizeWords t).map syllablesInWord).sum : ℚ) /
          ((extract t).word_count : ℚ)) - 15.59) := by
  by_cases hsp : (t.isEmpty || t.all pyIsSpace) = true
  · rw [extract_of_space hsp] at hw
    exact absurd hw (by norm_num [defaultFeatures])
  · by_cases h0 : (tokenizeWords t).length = 0
    · rw [extract_of_wc0 hsp h0] at hw
      exact absurd hw (by norm_num)
    · rw [extract_of_wcpos hsp h0]
      dsimp only
      rw [if_pos ⟨Nat.pos_of_ne_zero h0, lt_of_lt_of_le one_pos (le_max_right _ _)⟩]

/-- Witness for C7: the scenario `"cat dog sat."` — three one-syllable
words in one sentence; the formula gives `0.39*3 + 11.8*1 - 15.59 = -2.62`
so the grade level is floored to 0. -/
theorem claim_C7_witness :
    0 < (extract "cat dog sat.".toList).word_count ∧
      0 < (extract "cat dog sat.".toList).sentence_count ∧
      ((tokenizeWords "cat dog sat.".toList).map syllablesInWord).sum = 3 ∧
      (extract "cat dog sat.".toList).word_count = 3 ∧
      (extract "cat dog sat.".toList).sentence_count = 1 ∧
      (extract "cat dog sat.".toList).reading_grade_level =
        max 0 (0.39 * (((extract "cat dog sat.".toList).word_count : ℚ) /
            ((extract "cat dog sat.".toList).sentence_count : ℚ)) +
          11.8 * ((((tokenizeWords "cat dog sat.".toList).map syllablesInWord).sum : ℚ) /
            ((extract "cat dog sat.".toList).word_count : ℚ)) - 15.59) ∧
      (extract "cat dog sat.".toList).reading_grade_level = 0 := by
  refine ⟨by decide, by decide, by decide, by decide, by decide,
    claim_C7 "cat dog sat.".toList (by decide) (by decide), ?_⟩
  with_unfolding_all decide

/-!
## Claim C6 (syllable estimator against its specification)

The reference value is written the way the claim states it: the number of
transitions into a vowel group (a vowel not immediately preceded by a
vowel) computed positionally by pairing each character's vowel-ness with
its predecessor's, then the silent-`e` and `-le` corrections and the
floor at 1.
-/

/-- The number of maximal vowel runs, counted as the number of positions
whose character is a vowel while the preceding one (virtually a non-vowel
at the start) is not. -/
def vowelRunEntries (w : List Char) : ℕ :=
  ((false :: w.map isVowelChar).zip (w.map isVowelChar)).countP (fun p => p.2 && !p.1)

/-- The claim's reference syllable count: maximal vowel runs in the
lower-cased word, minus 1 for a final `e` when the run count exceeds 1,
plus 1 for a final `le` after a non-vowel in words longer than 2, floored
at 1. -/
def refSyllables (w : List Char) : ℕ :=
  let word := w.map Char.toLower
  let runs := vowelRunEntries word
  let afterSilentE := if endsWithE word = true ∧ 1 < runs then runs - 1 else runs
  let afterLE :=
    if endsWithLE word = true ∧ 2 < word.length ∧
        (thirdFromEnd word).elim false (fun c => !isVowelChar c) = true then
      afterSilentE + 1
    else afterSilentE
  max 1 afterLE

theorem vowelGroupCount_eq_entries (l : List Char) : ∀ prev : Bool,
    vowelGroupCount prev l =
      ((prev :: l.map isVowelChar).zip (l.map isVowelChar)).countP (fun p => p.2 && !p.1) := by
  induction l with
  | nil => intro prev; rfl
  | cons c cs ih =>
      intro prev
      simp only [vowelGroupCount, List.map_cons, List.zip_cons_cons, List.countP_cons, ih]
      cases hv : isVowelChar c <;> cases prev <;> simp [Nat.add_comm]

/-- C6: `_syllables_in_word` returns exactly the reference value stated in
the claim, and that value is always at least 1. -/
theorem claim_C6 (w : List Char) :
    syllablesInWord w = refSyllables w ∧ 1 ≤ syllablesInWord w := by
  constructor
  · unfold syllablesInWord refSyllables vowelRunEntries
    dsimp only
    rw [vowelGroupCount_eq_entries]
    simp only [Bool.and_eq_true, decide_eq_true_eq, and_assoc]
    rcases h : thirdFromEnd (w.map Char.toLower) with _ | c <;>
      simp only [h, Option.elim] <;> split_ifs <;> rfl
  · unfold syllablesInWord
    exact le_max_left 1 _

/-!
## Claim C10 (contracted first-person forms are not counted)
-/

/-- C10: the bare-pronoun list contains no apostrophe, so a token
containing an apostrophe (the tokenizer emits contractions like `I'm` as
single tokens) never matches `FIRST_PERSON` after lower-casing; in
particular `"I'm fine"` tokenizes to the two tokens `I'm`, `fine` and has
`first_person_ratio = 0`. -/
theorem claim_C10 (w : List Char) (h : '\'' ∈ w) :
    w.map Char.toLower ∉ FIRST_PERSON ∧
      tokenizeWords "I'm fine".toList = ["I'm".toList, "fine".toList] ∧
      (extract "I'm fine".toList).first_person_ratio = 0 := by
  refine ⟨?_, by decide, by with_unfolding_all decide⟩
  intro hmem
  have hq : '\'' ∈ w.map Char.toLower := by
    have : Char.toLower '\'' = '\'' := by decide
    exact this ▸ List.mem_map_of_mem Char.toLower h
  have : ∀ v ∈ FIRST_PERSON, '\'' ∉ v := by decide
  exact this _ hmem hq

/-- Witness for C10 at the token `I'm`. -/
theorem claim_C10_witness :
    '\'' ∈ "I'm".toList ∧ "I'm".toList.map Char.toLower ∉ FIRST_PERSON := by
  refine ⟨by decide, (claim_C10 "I'm".toList (by decide)).1⟩

/-!
## Claim C5 (exclamation monotonicity)

Adding a `'!'` can create a new `[.!?]` run and thereby increase the
denominator `sentence_count`, so `exclamation_ratio` is not monotone in
added exclamation marks, and inserting a `'!'` can also split a caps word
and lower `caps_ratio`.  Appending exclamation marks to a text that
already ends in terminal punctuation leaves the tokens and run count
unchanged, and then both quantities are monotone.
-/

theorem tokGo_replicate_bang : ∀ (k : ℕ) (st : TokState),
    tokGo st (List.replicate k '!') = tokFinish st := by
  intro k
  induction k with
  | zero => intro st; rfl
  | succ k ih =>
      intro st
      have ha : ('!').isAlpha = false := by decide
      have hw : isWordChar '!' = false := by decide
      have hq : ('!' == '\'') = false := by decide
      cases st <;>
        simp [List.replicate_succ, tokGo, tokStep, ha, hw, hq, ih, tokFinish]

theorem tokGo_append_bangs (l : List Char) : ∀ (st : TokState) (k : ℕ),
    tokGo st (l ++ List.replicate k '!') = tokGo st l := by
  induction l with
  | nil => intro st k; simpa using tokGo_replicate_bang k st
  | cons c cs ih =>
      intro st k
      simp only [List.cons_append, tokGo]
      cases h : tokStep st c with
      | mk st' tok => cases tok <;> simp [h, ih]

/-- Appending exclamation marks never changes the word tokens. -/
theorem tokenizeWords_append_bangs (t : List Char) (k : ℕ) :
    tokenizeWords (t ++ List.replicate k '!') = tokenizeWords t :=
  tokGo_append_bangs t _ k

theorem countRunsAux_append (p : Char → Bool) (l : List Char) : ∀ (b : Bool) (m : List Char),
    countRunsAux p b (l ++ m) =
      countRunsAux p b l + countRunsAux p (l.foldl (fun _ c => p c) b) m := by
  induction l with
  | nil => intro b m; simp [countRunsAux]
  | cons c cs ih =>
      intro b m
      simp only [List.cons_append, countRunsAux, List.foldl_cons]
      by_cases hc : p c = true <;> simp [hc, ih, Nat.add_assoc]

theorem countRunsAux_replicate_bang_true (k : ℕ) :
    countRunsAux isTerminalChar true (List.replicate k '!') = 0 := by
  induction k with
  | zero => rfl
  | succ k ih => simpa [List.replicate_succ, countRunsAux] using ih

theorem foldl_flag_getLast (p : Char → Bool) :
    ∀ (l : List Char) (b : Bool) (c : Char),
      l.getLast? = some c → l.foldl (fun _ x => p x) b = p c
  | [], _, _, h => absurd h (by simp)
  | [d], b, c, h => by
      simp only [List.getLast?_singleton, Option.some_inj] at h
      subst h
      rfl
  | d :: e :: es, b, c, h => by
      rw [List.getLast?_cons_cons] at h
      simpa using foldl_flag_getLast p (e :: es) (p d) c h

theorem terminal_not_space {c : Char} (h : isTerminalChar c = true) :
    pyIsSpace c = false := by
  simp only [isTerminalChar, Bool.or_eq_true, beq_iff_eq] at h
  rcases h with (h | h) | h <;> subst h <;> rfl

theorem all_pyIsSpace_false_of_mem {l : List Char} {c : Char} (hc : c ∈ l)
    (hp : pyIsSpace c = false) : l.all pyIsSpace = false := by
  cases hall : l.all pyIsSpace
  · rfl
  · exact absurd (List.all_eq_true.mp hall c hc) (by simp [hp])

theorem countP_bang_replicate (k : ℕ) :
    (List.replicate k '!').countP (· == '!') = k := by
  induction k with
  | zero => rfl
  | succ k ih => simp [List.replicate_succ, List.countP_cons, ih]

theorem countP_bang_append (t : List Char) (k : ℕ) :
    (t ++ List.replicate k '!').countP (· == '!') = t.countP (· == '!') + k := by
  rw [List.countP_append, countP_bang_replicate]

theorem terminalRuns_append_bangs (t : List Char) (c : Char) (k : ℕ)
    (hlast : t.getLast? = some c) (hterm : isTerminalChar c = true) :
    terminalRuns (t ++ List.replicate k '!') = terminalRuns t := by
  unfold terminalRuns
  rw [countRunsAux_append, foldl_flag_getLast isTerminalChar t false c hlast, hterm,
    countRunsAux_replicate_bang_true, Nat.add_zero]

theorem countSentencesPy_append_bangs (t : List Char) (c : Char) (k : ℕ)
    (hlast : t.getLast? = some c) (hterm : isTerminalChar c = true) :
    countSentencesPy (t ++ List.replicate k '!') = countSentencesPy t := by
  simp only [countSentencesPy, terminalRuns_append_bangs t c k hlast hterm]

/-- C5, counterexample: `"!!! a!"` is `"!!! a"` with one exclamation mark
added, yet its `exclamation_ratio` drops from 3 to 2 — the added `'!'`
creates a second sentence run, growing the denominator. -/
theorem claim_C5_counterexample :
    "!!! a!".toList = "!!! a".toList ++ ['!'] ∧
      (extract "!!! a".toList).exclamation_ratio = 3 ∧
      (extract ("!!! a".toList ++ ['!'])).exclamation_ratio = 2 ∧
      (extract ("!!! a".toList ++ ['!'])).exclamation_ratio <
        (extract "!!! a".toList).exclamation_ratio := by
  refine ⟨by decide, ?_, ?_, ?_⟩ <;> with_unfolding_all decide

/-- C5 (amended): appending exclamation marks to a text that already ends
in terminal punctuation (`.`, `!` or `?`) never decreases
`exclamation_ratio` or `emotional_intensity`.  (For arbitrary insertion
points the claim fails: an added `'!'` can create a new sentence run and
shrink the ratio, or split a caps word.) -/
theorem claim_C5_amended (t : List Char) (c : Char) (k : ℕ)
    (hlast : t.getLast? = some c) (hterm : isTerminalChar c = true) :
    (extract t).exclamation_ratio ≤
        (extract (t ++ List.replicate k '!')).exclamation_ratio ∧
      (extract t).emotional_intensity ≤
        (extract (t ++ List.replicate k '!')).emotional_intensity := by
  have hmem : c ∈ t := List.mem_of_mem_getLast? hlast
  have hcsp : pyIsSpace c = false := terminal_not_space hterm
  have hsp : ¬(t.isEmpty || t.all pyIsSpace) = true := by
    simp [List.isEmpty_eq_false.mpr (List.ne_nil_of_mem hmem),
      all_pyIsSpace_false_of_mem hmem hcsp]
  have hsp' : ¬((t ++ List.replicate k '!').isEmpty ||
      (t ++ List.replicate k '!').all pyIsSpace) = true := by
    simp [List.isEmpty_eq_false.mpr (List.ne_nil_of_mem (List.mem_append_left _ hmem)),
      all_pyIsSpace_false_of_mem (List.mem_append_left _ hmem) hcsp]
  have hwords := tokenizeWords_append_bangs t k
  have hsent := countSentencesPy_append_bangs t c k hlast hterm
  have hbang := countP_bang_append t k
  by_cases h0 : (tokenizeWords t).length = 0
  · have h0' : (tokenizeWords (t ++ List.replicate k '!')).length = 0 := by
      rw [hwords]; exact h0
    rw [extract_of_wc0 hsp h0, extract_of_wc0 hsp' h0']
    exact ⟨le_rfl, le_rfl⟩
  · have h0' : ¬(tokenizeWords (t ++ List.replicate k '!')).length = 0 := by
      rw [hwords]; exact h0
    have he := extract_of_wcpos hsp h0
    have he' := extract_of_wcpos hsp' h0'
    rw [hwords, hsent, hbang] at he'
    have hscpos : (0 : ℚ) < ((max (countSentencesPy t) 1 : ℕ) : ℚ) := by
      exact_mod_cast lt_of_lt_of_le one_pos (le_max_right _ _)
    have hcast : ((t.countP (· == '!') + k : ℕ) : ℚ) =
        (t.countP (· == '!') : ℚ) + (k : ℚ) := by push_cast; ring
    have hle : (t.countP (· == '!') : ℚ) / ((max (countSentencesPy t) 1 : ℕ) : ℚ) ≤
        ((t.countP (· == '!') + k : ℕ) : ℚ) / ((max (countSentencesPy t) 1 : ℕ) : ℚ) := by
      rw [hcast]
      exact (div_le_div_right hscpos).mpr (le_add_of_nonneg_right (by positivity))
    constructor
    · rw [he, he']
      exact hle
    · rw [he, he']
      simp only [LinguisticFeatures.emotional_intensity]
      have hmin : min ((t.countP (· == '!') : ℚ) /
            ((max (countSentencesPy t) 1 : ℕ) : ℚ) * 5) 1 ≤
          min (((t.countP (· == '!') + k : ℕ) : ℚ) /
            ((max (countSentencesPy t) 1 : ℕ) : ℚ) * 5) 1 :=
        min_le_min (mul_le_mul_of_nonneg_right hle (by norm_num)) le_rfl
      linarith

/-- Witness for C5 at the input `"a!"` with two appended exclamation
marks. -/
theorem claim_C5_witness :
    "a!".toList.getLast? = some '!' ∧ isTerminalChar '!' = true ∧
      (extract "a!".toList).exclamation_ratio ≤
        (extract ("a!".toList ++ List.replicate 2 '!')).exclamation_ratio ∧
      (extract "a!".toList).emotional_intensity ≤
        (extract ("a!".toList ++ List.replicate 2 '!')).emotional_intensity := by
  have h := claim_C5_amended "a!".toList '!' 2 (by decide) (by decide)
  exact ⟨by decide, by decide, h.1, h.2⟩

/-!
## Claim C8 (lexical matching semantics)

The claim's reference counts *all* substring occurrence positions of a
phrase; Python's `str.count` (and the successive `re.findall` search)
count leftmost **non-overlapping** occurrences, which is fewer for
self-overlapping phrases such as `"a a"` in `"a a a"`.  For phrases that
cannot overlap themselves — no nonempty proper prefix equal to a suffix,
or a single word made only of word characters (whose boundary matches can
never overlap) — the two counts coincide.
-/

/-- All substring occurrence positions of `p` (the claim's reference
count for multi-word phrases). -/
def subOccAux (p : List Char) : List Char → ℕ
  | [] => 0
  | c :: cs => (if p.isPrefixOf (c :: cs) then 1 else 0) + subOccAux p cs

/-- All word-boundary occurrence positions of `p` (the claim's reference
count for single-word phrases); `prevW` is the word-ness of the previous
character. -/
def bOccAux (p : List Char) : Bool → List Char → ℕ
  | _, [] => 0
  | prevW, c :: cs =>
      (if (prevW != headWordness p) && p.isPrefixOf (c :: cs) &&
          boundaryAt (lastWordness p) ((c :: cs).drop p.length) then 1 else 0) +
        bOccAux p (isWordChar c) cs

/-- The claim's reference for `_count_matches`: the sum over phrases of all
(boundary-respecting for single words) occurrence positions. -/
def specCountMatches (text : List Char) (word_list : List (List Char)) : ℕ :=
  (word_list.map (fun phrase =>
    if ' ' ∈ phrase then subOccAux phrase text else bOccAux phrase false text)).sum

/-- A phrase is borderless when no nonempty proper prefix equals the
suffix of the same length — i.e. it cannot overlap itself. -/
def borderlessB (p : List Char) : Bool :=
  (List.range p.length).all (fun d => d == 0 || !(p.take d == p.drop (p.length - d)))

/-- A borderless phrase occurring at some position cannot also occur at a
nearby overlapping position. -/
theorem no_self_overlap_of_borderless {p u : List Char} (hb : borderlessB p = true)
    (hpre : p.isPrefixOf u = true) {j : ℕ} (hj0 : 0 < j) (hjn : j < p.length) :
    ¬p.isPrefixOf (u.drop j) = true := by
  intro hpre2
  rw [List.isPrefixOf_iff_prefix] at hpre hpre2
  have h1 : p = u.take p.length := List.prefix_iff_eq_take.mp hpre
  have h2 : p = (u.drop j).take p.length := List.prefix_iff_eq_take.mp hpre2
  have h3 : p.drop j = (u.drop j).take (p.length - j) := by
    conv_lhs => rw [h1]
    rw [List.drop_take]
  have h4 : p.take (p.length - j) = (u.drop j).take (p.length - j) := by
    nth_rewrite 2 [h2]
    rw [List.take_take, min_eq_left (Nat.sub_le _ _)]
  have h5 : p.take (p.length - j) = p.drop j := by rw [h4, ← h3]
  have hd := List.all_eq_true.mp hb (p.length - j)
    (List.mem_range.mpr (by omega))
  rw [Nat.sub_sub_self (le_of_lt hjn)] at hd
  simp only [Bool.or_eq_true, beq_iff_eq, Bool.not_eq_eq_eq_not, Bool.not_true,
    beq_eq_false_iff_ne, ne_eq] at hd
  rcases hd with hd | hd
  · omega
  · exact hd h5

/-- For a borderless phrase, `str.count`'s skip-after-match scanning counts
every occurrence position: occurrences cannot hide inside a skipped
region. -/
theorem strCountAux_eq_subOcc {p : List Char} (hb : borderlessB p = true) (hp : p ≠ []) :
    ∀ (u : List Char) (skip : ℕ),
      (∀ j, j < skip → ¬p.isPrefixOf (u.drop j) = true) →
      strCountAux p skip u = subOccAux p u := by
  intro u
  induction u with
  | nil => intro skip _; cases skip <;> rfl
  | cons c cs ih =>
      intro skip hskip
      cases skip with
      | zero =>
          by_cases hpre : p.isPrefixOf (c :: cs) = true
          · simp only [strCountAux, subOccAux, if_pos hpre]
            rw [ih (p.length - 1) ?_]
            intro j hj
            have hlen : 0 < p.length := List.length_pos.mpr hp
            have := no_self_overlap_of_borderless hb hpre (j := j + 1)
              (by omega) (by omega)
            simpa using this
          · simp only [strCountAux, subOccAux, if_neg hpre, Nat.zero_add]
            exact ih 0 (by omega)
      | succ s =>
          have hpre0 : ¬p.isPrefixOf (c :: cs) = true := by
            have := hskip 0 (Nat.succ_pos s)
            simpa using this
          simp only [strCountAux, subOccAux, if_neg hpre0, Nat.zero_add]
          rw [ih s ?_]
          intro j hj
          have := hskip (j + 1) (by omega)
          simpa using this

/-- For a borderless phrase, the regex scanning of single-word matches
counts every boundary occurrence position. -/
theorem cwbAux_eq_bOcc_of_borderless {p : List Char} (hb : borderlessB p = true)
    (hp : p ≠ []) :
    ∀ (u : List Char) (skip : ℕ) (prevW : Bool),
      (∀ j, j < skip → ¬p.isPrefixOf (u.drop j) = true) →
      wordBoundaryCountAux p skip prevW u = bOccAux p prevW u := by
  intro u
  induction u with
  | nil => intro skip prevW _; cases skip <;> rfl
  | cons c cs ih =>
      intro skip prevW hskip
      cases skip with
      | zero =>
          by_cases htest : ((prevW != headWordness p) && p.isPrefixOf (c :: cs) &&
              boundaryAt (lastWordness p) ((c :: cs).drop p.length)) = true
          · have hpre : p.isPrefixOf (c :: cs) = true := by
              simp only [Bool.and_eq_true] at htest
              exact htest.1.2
            simp only [wordBoundaryCountAux, bOccAux, if_pos htest]
            rw [ih (p.length - 1) (isWordChar c) ?_]
            intro j hj
            have hlen : 0 < p.length := List.length_pos.mpr hp
            have := no_self_overlap_of_borderless hb hpre (j := j + 1)
              (by omega) (by omega)
            simpa using this
          · simp only [wordBoundaryCountAux, bOccAux, if_neg htest, Nat.zero_add]
            exact ih 0 (isWordChar c) (by omega)
      | succ s =>
          have hpre0 : ¬p.isPrefixOf (c :: cs) = true := by
            have := hskip 0 (Nat.succ_pos s)
            simpa using this
          have htest : ¬((prevW != headWordness p) && p.isPrefixOf (c :: cs) &&
              boundaryAt (lastWordness p) ((c :: cs).drop p.length)) = true := by
            simp only [Bool.and_eq_true]
            intro hcon
            exact hpre0 hcon.1.2
          simp only [wordBoundaryCountAux, bOccAux, if_neg htest, Nat.zero_add]
          rw [ih s (isWordChar c) ?_]
          intro j hj
          have := hskip (j + 1) (by omega)
          simpa using this

/-- The first character of a phrase of word characters is a word
character. -/
theorem headWordness_of_all {p : List Char} (hp : p ≠ [])
    (hw : p.all isWordChar = true) : headWordness p = true := by
  cases p with
  | nil => exact absurd rfl hp
  | cons c cs =>
      simp only [headWordness]
      exact List.all_eq_true.mp hw c (List.mem_cons_self c cs)

/-- For a single-word phrase made of word characters, the regex scanning
counts every boundary occurrence position: a boundary occurrence can never
begin strictly inside another occurrence, since the preceding character
would be a word character of the phrase. -/
theorem cwbAux_eq_bOcc_of_wordchars {p : List Char} (hw : p.all isWordChar = true)
    (hp : p ≠ []) :
    ∀ (u : List Char) (skip : ℕ) (prevW : Bool),
      skip < p.length →
      (skip ≠ 0 → prevW = true ∧ (p.drop (p.length - skip)).isPrefixOf u = true) →
      wordBoundaryCountAux p skip prevW u = bOccAux p prevW u := by
  intro u
  induction u with
  | nil => intro skip prevW _ _; cases skip <;> rfl
  | cons c cs ih =>
      intro skip prevW hlt hinv
      cases skip with
      | zero =>
          by_cases htest : ((prevW != headWordness p) && p.isPrefixOf (c :: cs) &&
              boundaryAt (lastWordness p) ((c :: cs).drop p.length)) = true
          · have hpre : p.isPrefixOf (c :: cs) = true := by
              simp only [Bool.and_eq_true] at htest
              exact htest.1.2
            simp only [wordBoundaryCountAux, bOccAux, if_pos htest]
            have hlen : 0 < p.length := List.length_pos.mpr hp
            have hp0 := List.drop_eq_getElem_cons (l := p) (n := 0) hlen
            rw [List.drop_zero] at hp0
            have hdc : p[0] = c ∧ p.drop (0 + 1) <+: cs := by
              rw [← List.cons_prefix_cons, ← hp0]
              exact List.isPrefixOf_iff_prefix.mp hpre
            rw [ih (p.length - 1) (isWordChar c) (by omega) ?_]
            intro hne
            constructor
            · rw [← hdc.1]
              exact List.all_eq_true.mp hw _ (List.getElem_mem _)
            · have hsub : p.length - (p.length - 1) = 0 + 1 := by omega
              rw [hsub, List.isPrefixOf_iff_prefix]
              exact hdc.2
          · simp only [wordBoundaryCountAux, bOccAux, if_neg htest, Nat.zero_add]
            exact ih 0 (isWordChar c) (List.length_pos.mpr hp) (fun h => absurd rfl h)
      | succ s =>
          obtain ⟨hprev, hpre⟩ := hinv (Nat.succ_ne_zero s)
          have hlen : 0 < p.length := List.length_pos.mpr hp
          have harg : p.length - (s + 1) + 1 = p.length - s := by omega
          have hdropcons : p.drop (p.length - (s + 1)) =
              p[p.length - (s + 1)] :: p.drop (p.length - (s + 1) + 1) :=
            List.drop_eq_getElem_cons (by omega)
          have hdc : p[p.length - (s + 1)] = c ∧
              (p.drop (p.length - (s + 1) + 1)) <+: cs := by
            rw [← List.cons_prefix_cons, ← hdropcons]
            exact List.isPrefixOf_iff_prefix.mp hpre
          have hcw : isWordChar c = true := by
            rw [← hdc.1]
            exact List.all_eq_true.mp hw _ (List.getElem_mem _)
          have htest : ¬((prevW != headWordness p) && p.isPrefixOf (c :: cs) &&
              boundaryAt (lastWordness p) ((c :: cs).drop p.length)) = true := by
            simp only [Bool.and_eq_true]
            intro hcon
            rw [hprev, headWordness_of_all hp hw] at hcon
            simpa using hcon.1.1
          simp only [wordBoundaryCountAux, bOccAux, if_neg htest, Nat.zero_add]
          rw [ih s (isWordChar c) (by omega) ?_]
          intro hs
          refine ⟨hcw, ?_⟩
          rw [List.isPrefixOf_iff_prefix, ← harg]
          exact hdc.2

/-- C8, counterexample: for the phrase `"a a"` (a space-containing phrase
that overlaps itself) in the text `"a a a"`, there are two substring
occurrence positions but `_count_matches` (Python `str.count`) reports
only the one leftmost non-overlapping occurrence. -/
theorem claim_C8_counterexample :
    countMatches "a a a".toList ["a a".toList] = 1 ∧
      subOccAux "a a".toList "a a a".toList = 2 ∧
      specCountMatches "a a a".toList ["a a".toList] = 2 ∧
      countMatches "a a a".toList ["a a".toList] ≠
        specCountMatches "a a a".toList ["a a".toList] := by
  refine ⟨by decide, by decide, by decide, by decide⟩

/-- C8 (amended): `_count_matches` counts, per phrase, leftmost
non-overlapping occurrences (substring occurrences for phrases containing
a space; whole-token word-boundary occurrences, never substrings of a
larger token, otherwise), each phrase searched independently and never
deduplicated.  For every lexicon whose phrases cannot self-overlap — each
phrase either has no nonempty proper prefix equal to its suffix of the
same length, or is a single word of word characters — this equals the sum
over phrases of *all* occurrence positions, as the claim stated; and a
surface form present in two lexicons, such as `"always"` in both the
certainty and absolutist lists, contributes to both categories' counts. -/
theorem claim_C8_amended :
    (∀ (text : List Char) (lexicon : List (List Char)),
      (∀ p ∈ lexicon, p ≠ [] ∧ (borderlessB p = true ∨ p.all isWordChar = true)) →
      countMatches text lexicon = specCountMatches text lexicon) ∧
      countMatches "always".toList CERTAINTY_MARKERS = 1 ∧
      countMatches "always".toList ABSOLUTIST_WORDS = 1 := by
  refine ⟨?_, by decide, by decide⟩
  intro text lexicon h
  unfold countMatches specCountMatches
  congr 1
  apply List.map_congr_left
  intro p hpmem
  obtain ⟨hp, hcase⟩ := h p hpmem
  by_cases hsp : ' ' ∈ p
  · have hb : borderlessB p = true := by
      rcases hcase with hb | hwall
      · exact hb
      · exact absurd (List.all_eq_true.mp hwall ' ' hsp) (by decide)
    simp only [if_pos hsp]
    exact strCountAux_eq_subOcc hb hp text 0 (by omega)
  · simp only [if_neg hsp]
    unfold wordBoundaryCount
    rcases hcase with hb | hwall
    · exact cwbAux_eq_bOcc_of_borderless hb hp text 0 false (by omega)
    · exact cwbAux_eq_bOcc_of_wordchars hwall hp text 0 false
        (List.length_pos.mpr hp) (fun h' => absurd rfl h')

/-- Witness for C8: the filler lexicon satisfies the no-self-overlap
hypothesis, and on `"you know, um"` the code's count equals the
all-occurrences reference count. -/
theorem claim_C8_witness :
    (∀ p ∈ FILLER_WORDS, p ≠ [] ∧
      (borderlessB p = true ∨ p.all isWordChar = true)) ∧
      countMatches "you know, um".toList FILLER_WORDS =
        specCountMatches "you know, um".toList FILLER_WORDS ∧
      countMatches "you know, um".toList FILLER_WORDS = 2 := by
  refine ⟨by decide, ?_, by decide⟩
  exact claim_C8_amended.1 "you know, um".toList FILLER_WORDS (by decide)

end Attuned
